import Mathlib

/-!
# chrome-nano — verification of the core glue logic

Shallow embedding of the repository `alexherbo2/chrome-nano`: a browser
extension that pipes the text of the focused editable element through an
external editor (or filter program) via a native-messaging host, and writes
the result back into the page.

The repository is a sequence of near-duplicate revisions of the same
event-wiring program.  We embed, per revision, the result-application step of
the edit session (the `if (result.status === 0 …)` blocks), the
request-sending step of the text locator, the message/connection routers, the
configuration merge performed on update, the structural-selector computation
and its `querySelector` resolution, the filter variant of `nano`, and the
shadow-DOM-descending `getActiveElement`.

Naming of the revisions:
- `backgroundRevA*` — first revision in `src/background.js` (shadow-DOM
  descent, plain-input / contenteditable / page-selection branches);
- `backgroundRevB*` — second revision in `src/background.js` (structural
  selector, two script injections);
- `scriptJs*` — `src/script.js` (content-script revision);
- `part000` / `part001` / `part002` — the unnamed revisions (editor-port,
  popup-port, and the clipboard-only background revision).
-/

/-- Result of the native bridge (`CommandResult`): process exit status and
captured file contents. -/
structure CommandResult where
  status : Int
  output : String
deriving Repr, DecidableEq

/-- State of a plain text control (`HTMLInputElement` / `HTMLTextAreaElement`):
its `value` and selection triple. -/
structure TextField where
  value : String
  selectionStart : Nat
  selectionEnd : Nat
  selectionDirection : String
deriving Repr, DecidableEq

/-- DOM-affecting operations a result handler can perform, in program order.
Clipboard writes are recorded as well, although they are not DOM mutations. -/
inductive DomEffect where
  | setValue (v : String)
  | setSelectionRange (s e : Nat) (dir : String)
  | dispatchInputEvent
  | focus
  | selectAllChildren
  | schedulePaste (text : String)
  | clipboardWrite (text : String)
  | scheduleClipboardOnFocus (text : String)
deriving Repr, DecidableEq

/-- Assigning `.value` collapses the selection to the end of the new value and
resets the direction, per the HTML standard. -/
def domSetValue (v : String) : TextField :=
  { value := v
    selectionStart := v.length
    selectionEnd := v.length
    selectionDirection := "none" }

/-- Semantics of `setSelectionRange(s, e, dir)`: offsets are clamped to the
current value's length (end first, then start to end), per the HTML standard. -/
def domSetSelectionRange (f : TextField) (s e : Nat) (dir : String) : TextField :=
  let e' := min e f.value.length
  let s' := min s e'
  { f with selectionStart := s', selectionEnd := e', selectionDirection := dir }

/-- Interpretation of one effect against a text field; events and clipboard
writes do not change the field. -/
def stepEffect (f : TextField) : DomEffect → TextField
  | .setValue v => domSetValue v
  | .setSelectionRange s e dir => domSetSelectionRange f s e dir
  | _ => f

/-- Run a list of effects left to right over a text field. -/
def runEffects (f : TextField) (effs : List DomEffect) : TextField :=
  effs.foldl stepEffect f

/-! ## Result application, per revision

Each definition embeds one `if (result.status === 0 …)` block: the effects it
performs when the awaited `CommandResult` arrives.  The extraction phase
(reading the value, saving the selection) happens before the round trip and is
passed in as the captured data. -/

/-- Revision A of `src/background.js`, plain-input branch: on `status === 0`
assign the value, restore the captured selection, dispatch an `input` event —
with no check that the output differs from the input. -/
def backgroundRevAPlainApply (captured : TextField) (r : CommandResult) : List DomEffect :=
  if r.status = 0 then
    [.setValue r.output,
     .setSelectionRange captured.selectionStart captured.selectionEnd captured.selectionDirection,
     .dispatchInputEvent]
  else []

/-- Revision A of `src/background.js`, contenteditable branch: on
`status === 0 && output.length > 0 && output !== '\n' && output !== selectedText`,
register a once-only focus listener that writes the output to the clipboard. -/
def backgroundRevAEditableApply (selectedText : String) (r : CommandResult) : List DomEffect :=
  if r.status = 0 ∧ r.output.length > 0 ∧ r.output ≠ "\n" ∧ r.output ≠ selectedText then
    [.scheduleClipboardOnFocus r.output]
  else []

/-- Revision A of `src/background.js`, page-selection branch
(`None`/`Caret`/`Range`): the round trip runs but no result handler is
installed — never any effect. -/
def backgroundRevASelectionApply (_r : CommandResult) : List DomEffect := []

/-- Revision B of `src/background.js` (`onAction`):
`if (commandResult.status !== 0) return`, else a second injection re-resolves
the element and assigns the value, restores the selection read at write time,
and dispatches an `input` event. -/
def backgroundRevBApply (atWrite : TextField) (r : CommandResult) : List DomEffect :=
  if r.status ≠ 0 then []
  else
    [.setValue r.output,
     .setSelectionRange atWrite.selectionStart atWrite.selectionEnd atWrite.selectionDirection,
     .dispatchInputEvent]

/-- Content script `src/script.js`, plain-input branch: on
`status === 0 && output !== selectedText`, focus, assign the value and
dispatch an `input` event.  No selection is captured or restored. -/
def scriptJsPlainApply (selectedText : String) (r : CommandResult) : List DomEffect :=
  if r.status = 0 ∧ r.output ≠ selectedText then
    [.focus, .setValue r.output, .dispatchInputEvent]
  else []

/-- Content script `src/script.js`, contenteditable branch: on
`status === 0 && output !== selectedText`, focus, select all children,
schedule a paste event (after a timeout) and write the output to the
clipboard. -/
def scriptJsEditableApply (selectedText : String) (r : CommandResult) : List DomEffect :=
  if r.status = 0 ∧ r.output ≠ selectedText then
    [.focus, .selectAllChildren, .schedulePaste r.output, .clipboardWrite r.output]
  else []

/-- Content script `src/script.js`, page-selection (`Range`) branch: the round
trip runs, its result is ignored. -/
def scriptJsSelectionApply (_r : CommandResult) : List DomEffect := []

/-- Editor-port revision `src/unnamed/part_000`, plain-input listener: on
`status === 0` assign value, restore captured selection, dispatch `input`. -/
def part000PlainApply (captured : TextField) (r : CommandResult) : List DomEffect :=
  if r.status = 0 then
    [.setValue r.output,
     .setSelectionRange captured.selectionStart captured.selectionEnd captured.selectionDirection,
     .dispatchInputEvent]
  else []

/-- Popup-port revision `src/unnamed/part_001`, result listener: identical to
`part000PlainApply` (every active element is treated as a plain input). -/
def part001PlainApply (captured : TextField) (r : CommandResult) : List DomEffect :=
  if r.status = 0 then
    [.setValue r.output,
     .setSelectionRange captured.selectionStart captured.selectionEnd captured.selectionDirection,
     .dispatchInputEvent]
  else []

/-- Background revision `src/unnamed/part_002`, plain-input branch: on
`status === 0` assign value, restore captured selection, dispatch `input`. -/
def part002PlainApply (captured : TextField) (r : CommandResult) : List DomEffect :=
  if r.status = 0 then
    [.setValue r.output,
     .setSelectionRange captured.selectionStart captured.selectionEnd captured.selectionDirection,
     .dispatchInputEvent]
  else []

/-- Background revision `src/unnamed/part_002`, contenteditable branch: on
`status === 0` write the output to the clipboard (no DOM mutation, no diff or
non-empty check). -/
def part002EditableApply (r : CommandResult) : List DomEffect :=
  if r.status = 0 then [.clipboardWrite r.output] else []

/-! ## Request sending (text locator), per revision

What the page looks like when the injected function runs, and whether an
`editTextArea` request is sent.  `some (some s)` = request with `input: s`,
`some none` = request with the `input` field omitted, `none` = no request. -/

/-- Selection `type` as reported by `window.getSelection()`. -/
inductive SelKind where
  | selNone
  | caret
  | range
deriving Repr, DecidableEq

/-- Facts about the page each injected locator inspects. -/
structure PageState where
  isPlainInput : Bool
  field : TextField
  isContentEditable : Bool
  editableText : String
  selKind : SelKind
  selText : String
deriving Repr, DecidableEq

/-- Revision A of `src/background.js`, `editTextArea`: plain inputs send their
value; contenteditable sends the select-all text; otherwise a request is still
sent — for `None`/`Caret` selections with the `input` field omitted, and for
`Range` selections with the selection text. -/
def backgroundRevARequest (p : PageState) : Option (Option String) :=
  if p.isPlainInput then some (some p.field.value)
  else if p.isContentEditable then some (some p.editableText)
  else
    match p.selKind with
    | .selNone => some none
    | .caret => some none
    | .range => some (some p.selText)

/-- Content script `src/script.js`, `editTextArea`: plain inputs send their
value, contenteditable sends the select-all text, a `Range` selection sends
its text, and otherwise no case of the `switch (true)` matches — no request. -/
def scriptJsRequest (p : PageState) : Option (Option String) :=
  if p.isPlainInput then some (some p.field.value)
  else if p.isContentEditable then some (some p.editableText)
  else if p.selKind = .range then some (some p.selText)
  else none

/-- Background revision `src/unnamed/part_002`, `editTextArea`: plain inputs
send their value; contenteditable sends a request with `input` omitted;
otherwise nothing. -/
def part002Request (p : PageState) : Option (Option String) :=
  if p.isPlainInput then some (some p.field.value)
  else if p.isContentEditable then some none
  else none

/-- Editor-port revision `src/unnamed/part_000`, `editTextArea`: plain inputs
post their value over the `editor` port; any other element disconnects the
port — no request. -/
def part000Request (p : PageState) : Option (Option String) :=
  if p.isPlainInput then some (some p.field.value) else none

/-! ## Command router (`src/background.js`, both revisions share this code) -/

/-- An incoming one-shot runtime message, with its discriminator fields. -/
structure RuntimeMessage where
  type : String
  action : String
  input : Option String
deriving Repr, DecidableEq

/-- What the router sends back: either the native bridge is invoked with the
message's `input` and its `CommandResult` is forwarded, or an error payload
`{type: "error", message}` is sent.  Both routers are total functions — no
input makes them throw. -/
inductive RouterResponse where
  | bridged (input : Option String)
  | error (message : String)
deriving Repr, DecidableEq

/-- Dispatch of `onActionMessage`: `switch (message.action)` — `editTextArea`
invokes `nano.open(message.input)` and forwards the result; anything else
responds with an unknown-action error. -/
def onActionMessage (m : RuntimeMessage) : RouterResponse :=
  if m.action = "editTextArea" then .bridged m.input
  else .error ("Unknown action: " ++ m.action)

/-- The `onMessage` listener: `switch (message.type)` — `action` dispatches to
`onActionMessage`, anything else responds with `Unknown request`. -/
def onMessageListener (m : RuntimeMessage) : RouterResponse :=
  if m.type = "action" then onActionMessage m
  else .error "Unknown request"

/-- What the `onConnect` listener does with a new port, keyed by channel name.
`errorPosted msg` means exactly one message is posted and the listener
returns. -/
inductive ConnectOutcome where
  | delegatedToOptionsWorker
  | errorPosted (message : String)
deriving Repr, DecidableEq

/-- The `onConnect` listener: `switch (port.name)` — `options` is handed to
the options worker; any other name gets exactly one error message posted and
nothing further. -/
def onConnectListener (name : String) : ConnectOutcome :=
  if name = "options" then .delegatedToOptionsWorker
  else .errorPosted ("Unknown type of connection: " ++ name)

/-! ## Lifecycle: `onUpdate` configuration merge

A JavaScript object literal built by spreads is modelled as the list of its
property insertions in order; a later insertion of the same key overwrites an
earlier one, so lookup takes the last binding. -/

/-- Lookup in a JS object modelled as an insertion sequence: the value of the
last binding of the key, if any. -/
def objGet (o : List (String × String)) (k : String) : Option String :=
  (o.reverse.find? (fun p => p.1 == k)).map (fun p => p.2)

/-- The object `onUpdate` stores: `{ ...config, ...options }` — all bindings
of the bundled default `config`, then all bindings of the currently stored
`options`. -/
def onUpdateStored (config options : List (String × String)) : List (String × String) :=
  config ++ options

/-! ## Filter/menu revision of `nano` (`src/nano.js`, third revision) -/

/-- Insertion sequence of
`new Map(items.map((item, index) => [template(item, index), item]))`:
the rendered-key/item pairs in index order. -/
def renderPairs {α : Type} (items : List α) (tmpl : α → Nat → String) : List (String × α) :=
  items.enum.map (fun p => (tmpl p.2 p.1, p.2))

/-- Semantics of `Map.prototype.has`: some binding of the key exists. -/
def mapHas {α : Type} (pairs : List (String × α)) (k : String) : Bool :=
  pairs.any (fun p => p.1 == k)

/-- Semantics of `Map.prototype.get`: the value of the last insertion of the
key (later insertions of a duplicate key overwrite earlier ones). -/
def mapGet {α : Type} (pairs : List (String × α)) (k : String) : Option α :=
  (pairs.reverse.find? (fun p => p.1 == k)).map (fun p => p.2)

/-- Character-level worker for `splitLines`: accumulate the current line
(reversed) and cut at each line break. -/
def splitLinesAux : List Char → List Char → List String
  | [], acc => [String.mk acc.reverse]
  | c :: cs, acc =>
    if c = '\n' then String.mk acc.reverse :: splitLinesAux cs []
    else splitLinesAux cs (c :: acc)

/-- Semantics of JavaScript `output.split('\n')`: the list of line-break
separated segments, keeping empty segments (`"".split('\n')` is `[""]`,
a trailing line break yields a trailing empty segment). -/
def splitLines (s : String) : List String :=
  splitLinesAux s.toList []

/-- The filter/menu `nano`, applied to the host's `result.output`: split the
output into lines, keep the lines that are keys of the menu, and map them to
their items. -/
def nanoFilterRun {α : Type} (items : List α) (tmpl : α → Nat → String)
    (output : String) : List α :=
  let pairs := renderPairs items tmpl
  let keys := splitLines output
  (keys.filter (fun k => mapHas pairs k)).filterMap (fun k => mapGet pairs k)

/-- Specification-side description of one selected line: the item of the
highest index whose rendered key is the line, written independently of the
`Map` model. -/
def lastRenderedItem {α : Type} (items : List α) (tmpl : α → Nat → String)
    (k : String) : Option α :=
  ((items.enum.filter (fun p => tmpl p.2 p.1 == k)).getLast?).map (fun p => p.2)

/-! ## Shadow-DOM descent: `getActiveElement`

Embedded from `src/script.js` lines 29–33 (and the equivalent inline
definitions in `src/background.js` revision A and `src/unnamed/part_002`):
if the level's `activeElement` has a shadow root, recurse into it, else return
the `activeElement`.  A null `activeElement` makes the JS expression throw
(`null.shadowRoot`), modelled as `none`. -/

mutual
/-- A `Document` or `ShadowRoot`: wraps its possibly-null `activeElement`. -/
inductive SRoot where
  | mk (activeElement : Option AElem) : SRoot

/-- An element, named for identification, with its possibly-null `shadowRoot`. -/
inductive AElem where
  | mk (name : String) (shadowRoot : Option SRoot) : AElem
end

/-- Accessor for `activeElement`. -/
def SRoot.active : SRoot → Option AElem
  | .mk a => a

/-- Accessor for `shadowRoot`. -/
def AElem.shadow : AElem → Option SRoot
  | .mk _ s => s

/-- The recursive descent itself. -/
def getActiveElement : SRoot → Option AElem
  | .mk none => none
  | .mk (some (.mk n none)) => some (.mk n none)
  | .mk (some (.mk _ (some sr))) => getActiveElement sr

/-- Number of recursive calls `getActiveElement` makes: the length of the
chain of focused shadow roots. -/
def chainDepth : SRoot → Nat
  | .mk none => 0
  | .mk (some (.mk _ none)) => 0
  | .mk (some (.mk _ (some sr))) => chainDepth sr + 1

/-- Whether some visited level has a null `activeElement` (the JS recursion
throws a `TypeError` there). -/
def brokenChain : SRoot → Bool
  | .mk none => true
  | .mk (some (.mk _ none)) => false
  | .mk (some (.mk _ (some sr))) => brokenChain sr

/-- Fuel-bounded evaluator for the descent: `none` means the fuel ran out
before the recursion finished; `some r` is the recursion's result. -/
def getActiveElementFuel : Nat → SRoot → Option (Option AElem)
  | _, .mk none => some none
  | _, .mk (some (.mk n none)) => some (some (.mk n none))
  | 0, .mk (some (.mk _ (some _))) => none
  | fuel + 1, .mk (some (.mk _ (some sr))) => getActiveElementFuel fuel sr

/-! ## Structural selector (`src/background.js`, revision B)

The source computes, walking up `parentElement` links,

```
element === document.documentElement
  ? document.documentElement.tagName
  : `${computeSelector(element.parentElement)} > :nth-child(${indexOf + 1})`
```

The document is a tree of elements; an element is identified by its path of
child indices from the document element.  The selector computed for the
element at path `p` is the root's tag name followed by one 1-based
`:nth-child` step per level of `p`.  Resolution is
`document.querySelector(selector)`: the first element in document (pre-)order
matching the selector, where `TAG > :nth-child(i₁) > … > :nth-child(iₖ)`
matches an element whose ancestor `k` levels up has tag `TAG` and whose child
indices on the way down are `i₁ … iₖ` — that ancestor need not be the
document element. -/

/-- An element tree: tag name and child elements. -/
inductive Dom where
  | node (tag : String) (children : List Dom)

/-- Tag name of the element. -/
def Dom.tag : Dom → String
  | .node t _ => t

/-- Child elements of the element. -/
def Dom.children : Dom → List Dom
  | .node _ cs => cs

/-- Descend from an element along a path of child indices. -/
def getPath : List Nat → Dom → Option Dom
  | [], t => some t
  | i :: rest, t =>
    match t.children[i]? with
    | some c => getPath rest c
    | none => none

/-- The `:nth-child` steps of the computed selector: each child index,
1-based, in root-to-element order (the order the recursive string
concatenation produces). -/
def computeSelectorSteps : List Nat → List Nat
  | [] => []
  | i :: rest => (i + 1) :: computeSelectorSteps rest

/-- Embedding of `computeSelector` for the element at path `p`: the document
element's tag name and the 1-based `:nth-child` steps. -/
def computeSelector (t : Dom) (p : List Nat) : String × List Nat :=
  (t.tag, computeSelectorSteps p)

mutual
/-- All element paths of the document, in document (pre-)order. -/
def allPaths : Dom → List (List Nat)
  | .node _ cs => [] :: allPathsChildren 0 cs

/-- Paths through the children starting at child index `j`. -/
def allPathsChildren : Nat → List Dom → List (List Nat)
  | _, [] => []
  | j, c :: cs => (allPaths c).map (fun q => j :: q) ++ allPathsChildren (j + 1) cs
end

/-- Whether the element at path `q` matches the selector
`tag > :nth-child(i₁) > … > :nth-child(iₖ)` with steps `idxs`: the last
`idxs.length` components of `q`, 1-based, are `idxs`, and the ancestor that
many levels up has tag `tag`. -/
def matchesSel (t : Dom) (tag : String) (idxs : List Nat) (q : List Nat) : Bool :=
  decide (idxs.length ≤ q.length) &&
  ((q.drop (q.length - idxs.length)).map (fun i => i + 1) == idxs) &&
  (match getPath (q.take (q.length - idxs.length)) t with
   | some e => e.tag == tag
   | none => false)

/-- Model of `document.querySelector`: the first element path in document
order matching the selector. -/
def querySelectorModel (t : Dom) (sel : String × List Nat) : Option (List Nat) :=
  (allPaths t).find? (matchesSel t sel.1 sel.2)

/-- A document whose body contains a nested element with the document
element's own tag name — legal DOM, built e.g. via
`document.body.appendChild(document.createElement('html'))`. -/
def dupRootTagDoc : Dom :=
  .node "HTML"
    [.node "DIV" [.node "HTML" [.node "A" [], .node "B" []]],
     .node "SPAN" []]

/-- A well-formed document: the root tag occurs only at the root. -/
def plainDoc : Dom :=
  .node "HTML" [.node "HEAD" [], .node "BODY" [.node "P" []]]

/-! ## Helper lemmas -/

theorem getActiveElement_fuel_eq :
    ∀ r : SRoot, getActiveElementFuel (chainDepth r) r = some (getActiveElement r)
  | .mk none => rfl
  | .mk (some (.mk _ none)) => rfl
  | .mk (some (.mk n (some sr))) => by
      show getActiveElementFuel (chainDepth sr) sr = some (getActiveElement sr)
      exact getActiveElement_fuel_eq sr

theorem getActiveElement_noShadow :
    ∀ (r : SRoot) (e : AElem), getActiveElement r = some e → e.shadow = none
  | .mk none, _, h => by simp [getActiveElement] at h
  | .mk (some (.mk n none)), e, h => by
      simp only [getActiveElement, Option.some.injEq] at h
      rw [← h]
      rfl
  | .mk (some (.mk n (some sr))), e, h => getActiveElement_noShadow sr e h

theorem getActiveElement_none_iff_broken :
    ∀ r : SRoot, getActiveElement r = none ↔ brokenChain r = true
  | .mk none => by simp [getActiveElement, brokenChain]
  | .mk (some (.mk n none)) => by simp [getActiveElement, brokenChain]
  | .mk (some (.mk n (some sr))) => getActiveElement_none_iff_broken sr

theorem computeSelectorSteps_eq_map :
    ∀ p : List Nat, computeSelectorSteps p = p.map (fun i => i + 1)
  | [] => rfl
  | i :: rest => by simp [computeSelectorSteps, computeSelectorSteps_eq_map rest]

theorem map_succ_inj :
    ∀ {a b : List Nat}, a.map (fun i => i + 1) = b.map (fun i => i + 1) → a = b
  | [], [], _ => rfl
  | [], b :: bs, h => by simp at h
  | a :: as, [], h => by simp at h
  | a :: as, b :: bs, h => by
      simp only [List.map_cons, List.cons.injEq] at h
      exact congrArg₂ (· :: ·) (by omega) (map_succ_inj h.2)

theorem find_eq_of_unique {α : Type} (p : α → Bool) :
    ∀ (l : List α) (x : α), x ∈ l → p x = true →
      (∀ y ∈ l, p y = true → y = x) → l.find? p = some x
  | [], x, hx, _, _ => absurd hx (List.not_mem_nil x)
  | a :: l, x, hx, hpx, huniq => by
      by_cases ha : p a = true
      · have hax : a = x := huniq a (List.mem_cons_self a l) ha
        rw [List.find?_cons_of_pos _ ha, hax]
      · have hax : x ≠ a := fun h => ha (h ▸ hpx)
        have hx' : x ∈ l := by
          rcases List.mem_cons.1 hx with h | h
          · exact absurd h hax
          · exact h
        rw [List.find?_cons_of_neg _ (by simpa using ha)]
        exact find_eq_of_unique p l x hx' hpx (fun y hy => huniq y (List.mem_cons_of_mem a hy))

mutual
theorem mem_allPaths :
    ∀ (t : Dom) (q : List Nat), q ∈ allPaths t ↔ (getPath q t).isSome
  | .node tag cs, [] => by simp [allPaths, getPath]
  | .node tag cs, i :: rest => by
      simp only [allPaths, List.mem_cons, List.cons_ne_nil, false_or,
        mem_allPathsChildren cs 0 (i :: rest), Nat.zero_add, getPath, Dom.children]
      constructor
      · rintro ⟨i', c, hc, rest', heq, hrest⟩
        obtain ⟨rfl, rfl⟩ : i = i' ∧ rest = rest' := by
          constructor <;> [exact (List.cons.injEq .. ▸ heq).1; exact (List.cons.injEq .. ▸ heq).2]
        rw [hc]
        exact hrest
      · intro h
        cases hc : cs[i]? with
        | none => rw [hc] at h; simp at h
        | some c =>
          rw [hc] at h
          exact ⟨i, c, hc, rest, rfl, h⟩

theorem mem_allPathsChildren :
    ∀ (cs : List Dom) (j : Nat) (q : List Nat),
      q ∈ allPathsChildren j cs ↔
        ∃ i c, cs[i]? = some c ∧ ∃ rest, q = (j + i) :: rest ∧ (getPath rest c).isSome
  | [], j, q => by simp [allPathsChildren]
  | c :: cs', j, q => by
      simp only [allPathsChildren, List.mem_append, List.mem_map,
        mem_allPaths c, mem_allPathsChildren cs' (j + 1) q]
      constructor
      · rintro (⟨q', hq', rfl⟩ | ⟨i, c', hc', rest, rfl, hrest⟩)
        · exact ⟨0, c, by simp, q', by simp, hq'⟩
        · exact ⟨i + 1, c', by simpa using hc', rest,
            by rw [Nat.add_comm i 1, ← Nat.add_assoc], hrest⟩
      · rintro ⟨i, c', hc', rest, rfl, hrest⟩
        cases i with
        | zero =>
          obtain rfl : c = c' := by simpa using hc'
          exact Or.inl ⟨rest, hrest, by simp⟩
        | succ i' =>
          exact Or.inr ⟨i', c', by simpa using hc', rest,
            by rw [Nat.add_comm i' 1, ← Nat.add_assoc], hrest⟩
end

theorem matchesSel_self (t : Dom) (p : List Nat) :
    matchesSel t t.tag (computeSelectorSteps p) p = true := by
  simp [matchesSel, computeSelectorSteps_eq_map, getPath]

theorem matchesSel_unique (t : Dom) (p q : List Nat)
    (huniq : ∀ q' ∈ allPaths t, q' ≠ [] → (getPath q' t).map Dom.tag ≠ some t.tag)
    (hm : matchesSel t t.tag (computeSelectorSteps p) q = true) : q = p := by
  rw [computeSelectorSteps_eq_map] at hm
  simp only [matchesSel, Bool.and_eq_true, decide_eq_true_eq, beq_iff_eq,
    List.length_map] at hm
  obtain ⟨⟨hlen, hdrop⟩, htag⟩ := hm
  have hdropeq : q.drop (q.length - p.length) = p := map_succ_inj hdrop
  rcases hgp : getPath (q.take (q.length - p.length)) t with _ | e
  · rw [hgp] at htag
    simp at htag
  · rw [hgp] at htag
    have htageq : e.tag = t.tag := by simpa using htag
    have hmem : q.take (q.length - p.length) ∈ allPaths t :=
      (mem_allPaths t _).2 (by rw [hgp]; rfl)
    have htake : q.take (q.length - p.length) = [] := by
      by_contra hne
      exact huniq _ hmem hne (by rw [hgp, Option.map_some', htageq])
    have hsplit := List.take_append_drop (q.length - p.length) q
    rw [htake, hdropeq] at hsplit
    simpa using hsplit.symm

theorem mapHas_eq_isSome {α : Type} (pairs : List (String × α)) (k : String) :
    mapHas pairs k = (mapGet pairs k).isSome := by
  rw [Bool.eq_iff_iff]
  simp [mapHas, mapGet, List.find?_isSome, List.mem_reverse]

theorem filter_filterMap_of_isSome {α β : Type} (pred : α → Bool) (g : α → Option β)
    (hp : ∀ a, pred a = (g a).isSome) :
    ∀ l : List α, (l.filter pred).filterMap g = l.filterMap g
  | [] => rfl
  | a :: l => by
      rcases hga : g a with _ | b
      · have hpa : pred a = false := by rw [hp a, hga]; rfl
        simp [List.filter_cons, hpa, List.filterMap_cons, hga,
          filter_filterMap_of_isSome pred g hp l]
      · have hpa : pred a = true := by rw [hp a, hga]; rfl
        simp [List.filter_cons, hpa, List.filterMap_cons, hga,
          filter_filterMap_of_isSome pred g hp l]

theorem mapGet_renderPairs {α : Type} (items : List α) (tmpl : α → Nat → String)
    (k : String) :
    mapGet (renderPairs items tmpl) k = lastRenderedItem items tmpl k := by
  simp only [mapGet, renderPairs, lastRenderedItem, List.filter_getLast?,
    ← List.map_reverse, List.find?_map, Option.map_map]
  rfl

theorem lastRenderedItem_mem {α : Type} (items : List α) (tmpl : α → Nat → String)
    (k : String) (x : α) (h : lastRenderedItem items tmpl k = some x) : x ∈ items := by
  simp only [lastRenderedItem, Option.map_eq_some'] at h
  obtain ⟨p, hp, rfl⟩ := h
  have hmem := List.mem_of_getLast?_eq_some hp
  rw [List.mem_filter] at hmem
  exact List.snd_mem_of_mem_enumFrom hmem.1

/-! ## Claims -/

/-- C1: for every `CommandResult` with `status ≠ 0`, the edit session performs
no DOM mutation — no value assignment, no selection change, no input or paste
event — in every revision's result handler (and no clipboard write either:
every handler's effect list is empty). -/
theorem editSession_noMutationOnFailure (captured atWrite : TextField)
    (text : String) (r : CommandResult) (h : r.status ≠ 0) :
    backgroundRevAPlainApply captured r = [] ∧
    backgroundRevAEditableApply text r = [] ∧
    backgroundRevASelectionApply r = [] ∧
    backgroundRevBApply atWrite r = [] ∧
    scriptJsPlainApply text r = [] ∧
    scriptJsEditableApply text r = [] ∧
    scriptJsSelectionApply r = [] ∧
    part000PlainApply captured r = [] ∧
    part001PlainApply captured r = [] ∧
    part002PlainApply captured r = [] ∧
    part002EditableApply r = [] := by
  refine ⟨?_, ?_, rfl, ?_, ?_, ?_, rfl, ?_, ?_, ?_, ?_⟩ <;>
    simp [backgroundRevAPlainApply, backgroundRevAEditableApply, backgroundRevBApply,
      scriptJsPlainApply, scriptJsEditableApply, part000PlainApply, part001PlainApply,
      part002PlainApply, part002EditableApply, h]

/-- Witness for C1 at a concrete failing result. -/
theorem editSession_noMutationOnFailure_witness :
    ((1 : Int) ≠ 0) ∧
    backgroundRevAPlainApply ⟨"hello", 0, 5, "forward"⟩ ⟨1, "stale"⟩ = [] ∧
    scriptJsPlainApply "hello" ⟨1, "stale"⟩ = [] :=
  ⟨by decide,
   (editSession_noMutationOnFailure ⟨"hello", 0, 5, "forward"⟩ ⟨"hello", 0, 5, "forward"⟩
      "hello" ⟨1, "stale"⟩ (by decide)).1,
   (editSession_noMutationOnFailure ⟨"hello", 0, 5, "forward"⟩ ⟨"hello", 0, 5, "forward"⟩
      "hello" ⟨1, "stale"⟩ (by decide)).2.2.2.2.1⟩

/-- C2 counterexample: with `status = 0` and `output` equal to the extracted
input, revision A's plain-input handler still assigns the value, restores the
selection and dispatches an `input` event — a DOM mutation, contradicting the
claim that it happens in no revision. -/
theorem equalOutput_still_mutates_revA_plain :
    (CommandResult.mk 0 "a").status = 0 ∧
    (CommandResult.mk 0 "a").output = (TextField.mk "a" 0 0 "none").value ∧
    backgroundRevAPlainApply ⟨"a", 0, 0, "none"⟩ ⟨0, "a"⟩ ≠ [] ∧
    backgroundRevAPlainApply ⟨"a", 0, 0, "none"⟩ ⟨0, "a"⟩ =
      [.setValue "a", .setSelectionRange 0 0 "none", .dispatchInputEvent] :=
  ⟨rfl, rfl, by decide, rfl⟩

/-- C2 amended: with `status = 0` and `output = input`, the content-script
revision (`src/script.js`, both branches) and revision A's contenteditable
branch perform no DOM mutation; but the plain-input handlers of revision A,
`part_000`, `part_001`, `part_002` and revision B apply the result whenever
`status = 0`, assigning the (unchanged) value, restoring the selection and
dispatching an `input` event even when the output equals the input. -/
theorem equalOutput_noMutation_amended (captured : TextField) (r : CommandResult)
    (h0 : r.status = 0) (heq : r.output = captured.value) :
    scriptJsPlainApply captured.value r = [] ∧
    scriptJsEditableApply captured.value r = [] ∧
    backgroundRevAEditableApply captured.value r = [] ∧
    backgroundRevAPlainApply captured r =
      [.setValue r.output,
       .setSelectionRange captured.selectionStart captured.selectionEnd captured.selectionDirection,
       .dispatchInputEvent] ∧
    part000PlainApply captured r = backgroundRevAPlainApply captured r ∧
    part001PlainApply captured r = backgroundRevAPlainApply captured r ∧
    part002PlainApply captured r = backgroundRevAPlainApply captured r ∧
    backgroundRevBApply captured r = backgroundRevAPlainApply captured r := by
  simp [scriptJsPlainApply, scriptJsEditableApply, backgroundRevAEditableApply,
    backgroundRevAPlainApply, part000PlainApply, part001PlainApply, part002PlainApply,
    backgroundRevBApply, h0, heq]

/-- Witness for the amended C2 at a concrete unchanged result. -/
theorem equalOutput_noMutation_amended_witness :
    scriptJsPlainApply "a" ⟨0, "a"⟩ = [] ∧
    backgroundRevAPlainApply ⟨"a", 0, 0, "none"⟩ ⟨0, "a"⟩ ≠ [] :=
  ⟨(equalOutput_noMutation_amended ⟨"a", 0, 0, "none"⟩ ⟨0, "a"⟩ rfl rfl).1,
   by
    rw [(equalOutput_noMutation_amended ⟨"a", 0, 0, "none"⟩ ⟨0, "a"⟩ rfl rfl).2.2.2.1]
    decide⟩

/-- C3 counterexample: with nothing editable focused and a `Caret` selection,
revision A of `src/background.js` still sends an `editTextArea` request (with
the `input` field omitted), contradicting the claim that no request is sent. -/
theorem noneCaret_still_sends_request_revA :
    backgroundRevARequest ⟨false, ⟨"", 0, 0, "none"⟩, false, "", .caret, ""⟩ = some none ∧
    backgroundRevARequest ⟨false, ⟨"", 0, 0, "none"⟩, false, "", .caret, ""⟩ ≠ none :=
  ⟨rfl, by decide⟩

/-- C3 amended: when the focused element is neither a plain input nor
contenteditable and the selection type is `None` or `Caret`, the content
script `src/script.js` sends no request (as do `part_000` and `part_002`),
while revision A of `src/background.js` sends an `editTextArea` request with
the `input` field omitted. -/
theorem noRequest_when_nothingToEdit_amended (p : PageState)
    (hni : p.isPlainInput = false) (hnc : p.isContentEditable = false)
    (hsel : p.selKind = .selNone ∨ p.selKind = .caret) :
    scriptJsRequest p = none ∧
    part000Request p = none ∧
    part002Request p = none ∧
    backgroundRevARequest p = some none := by
  rcases hsel with h | h <;>
    simp [scriptJsRequest, part000Request, part002Request, backgroundRevARequest,
      hni, hnc, h]

/-- Witness for the amended C3 at a concrete page state. -/
theorem noRequest_when_nothingToEdit_amended_witness :
    scriptJsRequest ⟨false, ⟨"", 0, 0, "none"⟩, false, "", .caret, ""⟩ = none ∧
    backgroundRevARequest ⟨false, ⟨"", 0, 0, "none"⟩, false, "", .caret, ""⟩ = some none :=
  ⟨(noRequest_when_nothingToEdit_amended ⟨false, ⟨"", 0, 0, "none"⟩, false, "", .caret, ""⟩
      rfl rfl (Or.inr rfl)).1,
   (noRequest_when_nothingToEdit_amended ⟨false, ⟨"", 0, 0, "none"⟩, false, "", .caret, ""⟩
      rfl rfl (Or.inr rfl)).2.2.2⟩

theorem runEffects_standardApply (captured : TextField) (out : String)
    (hstart : captured.selectionStart ≤ captured.selectionEnd)
    (hend : captured.selectionEnd ≤ out.length) :
    runEffects captured
      [.setValue out,
       .setSelectionRange captured.selectionStart captured.selectionEnd captured.selectionDirection,
       .dispatchInputEvent] =
      ⟨out, captured.selectionStart, captured.selectionEnd, captured.selectionDirection⟩ := by
  simp [runEffects, stepEffect, domSetValue, domSetSelectionRange,
    Nat.min_eq_left hend, Nat.min_eq_left hstart]

/-- C4 counterexample: the content-script revision `src/script.js` handles
plain inputs but never captures or restores the selection: after a successful
differing result, the caret has collapsed to the end of the new value instead
of the selection captured before extraction. -/
theorem scriptJs_plain_selectionNotRestored :
    (CommandResult.mk 0 "hello world").status = 0 ∧
    (CommandResult.mk 0 "hello world").output ≠ (TextField.mk "hello" 0 5 "forward").value ∧
    runEffects ⟨"hello", 0, 5, "forward"⟩
      (scriptJsPlainApply "hello" ⟨0, "hello world"⟩) =
      ⟨"hello world", 11, 11, "none"⟩ ∧
    (TextField.mk "hello world" 11 11 "none").selectionEnd ≠
      (TextField.mk "hello" 0 5 "forward").selectionEnd :=
  ⟨rfl, by decide, by decide, by decide⟩

/-- C4 amended: after a result with `status = 0` and output differing from the
extracted value, the revisions that capture the selection (revision A,
`part_000`, `part_001`, `part_002`, and revision B when the field is unchanged
at write time) set `value = output` and restore the captured selection (exact
when the captured offsets fit in the new value; otherwise `setSelectionRange`
clamps them); the content-script revision `src/script.js` sets the value but
restores nothing — its selection collapses to the end of the new value. -/
theorem plainApply_roundTrip_amended (captured : TextField) (r : CommandResult)
    (h0 : r.status = 0) (hne : r.output ≠ captured.value)
    (hstart : captured.selectionStart ≤ captured.selectionEnd)
    (hend : captured.selectionEnd ≤ r.output.length) :
    runEffects captured (backgroundRevAPlainApply captured r) =
      ⟨r.output, captured.selectionStart, captured.selectionEnd, captured.selectionDirection⟩ ∧
    runEffects captured (part000PlainApply captured r) =
      ⟨r.output, captured.selectionStart, captured.selectionEnd, captured.selectionDirection⟩ ∧
    runEffects captured (part001PlainApply captured r) =
      ⟨r.output, captured.selectionStart, captured.selectionEnd, captured.selectionDirection⟩ ∧
    runEffects captured (part002PlainApply captured r) =
      ⟨r.output, captured.selectionStart, captured.selectionEnd, captured.selectionDirection⟩ ∧
    runEffects captured (backgroundRevBApply captured r) =
      ⟨r.output, captured.selectionStart, captured.selectionEnd, captured.selectionDirection⟩ ∧
    runEffects captured (scriptJsPlainApply captured.value r) = domSetValue r.output := by
  have hstd := runEffects_standardApply captured r.output hstart hend
  refine ⟨?_, ?_, ?_, ?_, ?_, ?_⟩
  · simp only [backgroundRevAPlainApply, if_pos h0]
    exact hstd
  · simp only [part000PlainApply, if_pos h0]
    exact hstd
  · simp only [part001PlainApply, if_pos h0]
    exact hstd
  · simp only [part002PlainApply, if_pos h0]
    exact hstd
  · simp only [backgroundRevBApply, h0, ne_eq, not_true_eq_false, if_neg, ite_false,
      not_false_eq_true]
    exact hstd
  · simp only [scriptJsPlainApply, if_pos (And.intro h0 hne)]
    simp [runEffects, stepEffect]

/-- Witness for the amended C4 at the spec's end-to-end example: value
`"hello"` fully selected, output `"hello world"`. -/
theorem plainApply_roundTrip_amended_witness :
    runEffects ⟨"hello", 0, 5, "forward"⟩
      (backgroundRevAPlainApply ⟨"hello", 0, 5, "forward"⟩ ⟨0, "hello world"⟩) =
      ⟨"hello world", 0, 5, "forward"⟩ ∧
    runEffects ⟨"hello", 0, 5, "forward"⟩
      (scriptJsPlainApply "hello" ⟨0, "hello world"⟩) = domSetValue "hello world" :=
  ⟨(plainApply_roundTrip_amended ⟨"hello", 0, 5, "forward"⟩ ⟨0, "hello world"⟩
      rfl (by decide) (by decide) (by decide)).1,
   (plainApply_roundTrip_amended ⟨"hello", 0, 5, "forward"⟩ ⟨0, "hello world"⟩
      rfl (by decide) (by decide) (by decide)).2.2.2.2.2⟩

/-- C5 counterexample: in a document whose body nests an element with the
document element's tag name, `querySelector`'s first match for the computed
selector of the root's second child (`HTML > :nth-child(2)`) is a descendant
of the nested `HTML` element, not the element the selector was computed
for — the round trip fails even though the document never changed. -/
theorem selectorRoundTrip_failsOnDupRootTag :
    (getPath [1] dupRootTagDoc).isSome ∧
    querySelectorModel dupRootTagDoc (computeSelector dupRootTagDoc [1]) = some [0, 0, 1] ∧
    querySelectorModel dupRootTagDoc (computeSelector dupRootTagDoc [1]) ≠ some [1] :=
  ⟨by decide, by decide, by decide⟩

/-- C5 amended: the structural-selector round trip
`resolve (computeSelector element) = element` holds for every element of the
document, provided additionally that no element other than the document
element carries the document element's tag name (true of ordinary documents;
violated only by a nested element with the root's tag). -/
theorem selectorRoundTrip_uniqueRootTag (t : Dom) (p : List Nat)
    (hvalid : (getPath p t).isSome)
    (huniq : ∀ q ∈ allPaths t, q ≠ [] → (getPath q t).map Dom.tag ≠ some t.tag) :
    querySelectorModel t (computeSelector t p) = some p := by
  show (allPaths t).find? (matchesSel t t.tag (computeSelectorSteps p)) = some p
  exact find_eq_of_unique _ (allPaths t) p ((mem_allPaths t p).2 hvalid)
    (matchesSel_self t p)
    (fun q _ hm => matchesSel_unique t p q huniq hm)

/-- Witness for the amended C5 on a well-formed document. -/
theorem selectorRoundTrip_uniqueRootTag_witness :
    (getPath [1, 0] plainDoc).isSome ∧
    querySelectorModel plainDoc (computeSelector plainDoc [1, 0]) = some [1, 0] :=
  ⟨by decide,
   selectorRoundTrip_uniqueRootTag plainDoc [1, 0] (by decide) (by decide)⟩

/-- C6 counterexample: the content-script revision `src/script.js` applies a
successful result to a contenteditable target even when the output is empty
(it only checks that the output differs from the extracted text), so the
claimed non-empty-output condition does not hold in every revision. -/
theorem scriptJs_editable_appliesEmptyOutput :
    (CommandResult.mk 0 "").status = 0 ∧
    (CommandResult.mk 0 "").output = "" ∧
    scriptJsEditableApply "draft" ⟨0, ""⟩ =
      [.focus, .selectAllChildren, .schedulePaste "", .clipboardWrite ""] ∧
    scriptJsEditableApply "draft" ⟨0, ""⟩ ≠ [] :=
  ⟨rfl, rfl, by decide, by decide⟩

/-- C6 amended: the contenteditable apply condition varies by revision —
revision A of `src/background.js` applies exactly when `status = 0`, the
output is non-empty, not a lone line break, and differs from the extracted
text; `src/script.js` applies exactly when `status = 0` and the output
differs (no non-empty or line-break check); `part_002` applies its clipboard
write whenever `status = 0`. -/
theorem editableApplyCondition_amended (text : String) (r : CommandResult) :
    (backgroundRevAEditableApply text r ≠ [] ↔
      r.status = 0 ∧ r.output.length > 0 ∧ r.output ≠ "\n" ∧ r.output ≠ text) ∧
    (scriptJsEditableApply text r ≠ [] ↔ r.status = 0 ∧ r.output ≠ text) ∧
    (part002EditableApply r ≠ [] ↔ r.status = 0) := by
  unfold backgroundRevAEditableApply scriptJsEditableApply part002EditableApply
  refine ⟨?_, ?_, ?_⟩ <;> split <;> (simp_all; try assumption)

/-- C7: routing is total (both listeners are total functions) and the error
paths are exact — a one-shot message whose `type` is not `action` gets
`Unknown request`; an `action` message whose `action` is not `editTextArea`
gets `Unknown action: <action>`; a connection whose name is not `options`
gets exactly one `Unknown type of connection: <name>` message and nothing
further. -/
theorem routerTotal_unknownPaths (m : RuntimeMessage) (name : String) :
    (m.type ≠ "action" → onMessageListener m = .error "Unknown request") ∧
    (m.type = "action" → m.action ≠ "editTextArea" →
      onMessageListener m = .error ("Unknown action: " ++ m.action)) ∧
    (name ≠ "options" →
      onConnectListener name = .errorPosted ("Unknown type of connection: " ++ name)) := by
  refine ⟨?_, ?_, ?_⟩
  · intro h
    simp [onMessageListener, h]
  · intro ht ha
    simp [onMessageListener, onActionMessage, ht, ha]
  · intro h
    simp [onConnectListener, h]

/-- Witness for C7 at the spec's own examples: a `bogus` message and a
`bogus` connection. -/
theorem routerTotal_unknownPaths_witness :
    onMessageListener ⟨"bogus", "x", none⟩ = .error "Unknown request" ∧
    onMessageListener ⟨"action", "frobnicate", none⟩ = .error "Unknown action: frobnicate" ∧
    onConnectListener "bogus" = .errorPosted "Unknown type of connection: bogus" :=
  ⟨(routerTotal_unknownPaths ⟨"bogus", "x", none⟩ "bogus").1 (by decide),
   (routerTotal_unknownPaths ⟨"action", "frobnicate", none⟩ "bogus").2.1 rfl (by decide),
   (routerTotal_unknownPaths ⟨"bogus", "x", none⟩ "bogus").2.2 (by decide)⟩

/-- C8: the object stored by `onUpdate` — `{ ...config, ...options }` — gives
precedence to the previously stored options on overlapping keys, and falls
back to the bundled defaults for keys the stored options lack. -/
theorem onUpdate_optionsPrecedence (config options : List (String × String))
    (k : String) :
    (∀ v, objGet options k = some v →
      objGet (onUpdateStored config options) k = some v) ∧
    (objGet options k = none →
      objGet (onUpdateStored config options) k = objGet config k) := by
  have hmerge : objGet (onUpdateStored config options) k =
      ((options.reverse.find? (fun p => p.1 == k)).or
        (config.reverse.find? (fun p => p.1 == k))).map (fun p => p.2) := by
    simp [objGet, onUpdateStored, List.reverse_append, List.find?_append]
  rcases h : options.reverse.find? (fun p => p.1 == k) with _ | pr
  · constructor
    · intro v hv
      simp only [objGet, h] at hv
      simp at hv
    · intro _
      rw [hmerge, h, Option.none_or]
      rfl
  · constructor
    · intro v hv
      simp only [objGet, h] at hv
      rw [hmerge, h, Option.or_some]
      exact hv
    · intro hnone
      simp only [objGet, h] at hnone
      simp at hnone

/-- Witness for C8: the stored options' `command` beats the default, the
default's `theme` survives. -/
theorem onUpdate_optionsPrecedence_witness :
    objGet (onUpdateStored [("command", "xterm"), ("theme", "light")]
      [("command", "kitty")]) "command" = some "kitty" ∧
    objGet (onUpdateStored [("command", "xterm"), ("theme", "light")]
      [("command", "kitty")]) "theme" = some "light" :=
  ⟨(onUpdate_optionsPrecedence [("command", "xterm"), ("theme", "light")]
      [("command", "kitty")] "command").1 "kitty" rfl,
   ((onUpdate_optionsPrecedence [("command", "xterm"), ("theme", "light")]
      [("command", "kitty")] "theme").2 rfl).trans rfl⟩

/-- C9: the filter/menu `nano` returns exactly the items whose rendered key is
a line of the host's output, in the output's line order; every returned item
is drawn from `items`, unmatched lines are dropped, and a duplicated rendered
key resolves to the later-indexed item (`lastRenderedItem`). -/
theorem nanoFilter_selectionSpec {α : Type} (items : List α)
    (tmpl : α → Nat → String) (output : String) :
    (∀ x ∈ nanoFilterRun items tmpl output, x ∈ items) ∧
    nanoFilterRun items tmpl output =
      (splitLines output).filterMap (fun k => lastRenderedItem items tmpl k) := by
  have hrun : nanoFilterRun items tmpl output =
      (splitLines output).filterMap (fun k => lastRenderedItem items tmpl k) := by
    unfold nanoFilterRun
    rw [filter_filterMap_of_isSome _ _ (fun k => mapHas_eq_isSome (renderPairs items tmpl) k)]
    congr 1
    funext k
    exact mapGet_renderPairs items tmpl k
  refine ⟨?_, hrun⟩
  intro x hx
  rw [hrun, List.mem_filterMap] at hx
  obtain ⟨k, _, hk⟩ := hx
  exact lastRenderedItem_mem items tmpl k x hk

/-- Witness for C9 on a concrete menu: duplicate keys resolve to the
later-indexed item, unmatched lines are dropped, line order is kept. -/
theorem nanoFilter_selectionSpec_witness :
    nanoFilterRun [(0, "beta"), (1, "alpha"), (2, "beta")] (fun s _ => s.2) "beta\ngamma\nalpha" =
      (splitLines "beta\ngamma\nalpha").filterMap
        (fun k => lastRenderedItem [(0, "beta"), (1, "alpha"), (2, "beta")] (fun s _ => s.2) k) ∧
    nanoFilterRun [(0, "beta"), (1, "alpha"), (2, "beta")] (fun s _ => s.2) "beta\ngamma\nalpha" =
      [(2, "beta"), (1, "alpha")] ∧
    (2, "beta") ∈ [(0, "beta"), (1, "alpha"), (2, "beta")] :=
  ⟨(nanoFilter_selectionSpec [(0, "beta"), (1, "alpha"), (2, "beta")]
      (fun s _ => s.2) "beta\ngamma\nalpha").2,
   by decide,
   (nanoFilter_selectionSpec [(0, "beta"), (1, "alpha"), (2, "beta")]
      (fun s _ => s.2) "beta\ngamma\nalpha").1 (2, "beta") (by decide)⟩

/-- C10: the shadow-DOM descent terminates for every finite chain of focused
shadow roots — the fuel-bounded evaluator finishes within exactly the chain's
depth, one strict descent per recursive call; its result, when defined, is an
element with no shadow root of its own; and it is undefined (the JS throws)
exactly when some visited level has a null `activeElement`. -/
theorem getActiveElement_descentSpec (r : SRoot) :
    getActiveElementFuel (chainDepth r) r = some (getActiveElement r) ∧
    (∀ e, getActiveElement r = some e → e.shadow = none) ∧
    (getActiveElement r = none ↔ brokenChain r = true) :=
  ⟨getActiveElement_fuel_eq r,
   fun e h => getActiveElement_noShadow r e h,
   getActiveElement_none_iff_broken r⟩

/-- Witness for C10 on a two-level shadow chain. -/
theorem getActiveElement_descentSpec_witness :
    getActiveElement
      (.mk (some (.mk "host" (some (.mk (some (.mk "inner" none))))))) =
      some (.mk "inner" none) ∧
    AElem.shadow (.mk "inner" none) = none :=
  ⟨rfl,
   (getActiveElement_descentSpec
      (.mk (some (.mk "host" (some (.mk (some (.mk "inner" none)))))))).2.1
      (.mk "inner" none) rfl⟩
